import Mathlib

/-!
Verification of hugo-search against its specification.

hugo-search is a small HTTP front-end over the Bleve search engine. Its own
code is wiring (flag parsing, opening an index, delegating HTTP requests);
the Go source present in the repository snapshot is the vendored
`github.com/pelletier/go-toml/v2` files `decode.go` and `unmarshaler.go`,
which are embedded here faithfully. The repository's own `main` wiring is not
part of the snapshot, so it is modelled from the specification where a claim
needs it; those definitions carry a doc comment starting `Modelled from the
spec:`.

Bytes are modelled as `Nat` (values 0..255 in every concrete input); Go
`int`/`int64` values are modelled as `Int` with explicit wrap-around where Go
converts between sizes. A Go function that can panic (out-of-range slice or
array index) is embedded with result type `GoRes`, whose `panic` constructor
marks exactly the executions where Go would panic at run time.
-/

/-- Outcome of a fallible Go function: a returned value, a returned error
(`newDecodeError` / `fmt.Errorf`), or a run-time panic such as an
out-of-range index. -/
inductive GoRes (α : Type) where
  | ok : α → GoRes α
  | err : String → GoRes α
  | panic : GoRes α
deriving Repr, DecidableEq

namespace Toml

/-- `LocalDate` from go-toml: year, month, day as Go `int`s. -/
structure LocalDate where
  Year : Int
  Month : Int
  Day : Int
deriving Repr, DecidableEq

/-- `parseDecimalDigits` (decode.go:53): `v = v*10 + int(c - '0')` over the
bytes. `c - '0'` is Go byte subtraction, wrapping modulo 256; its result is
then widened to `int`, so each summand is `(c + 256 - 48) % 256`. -/
def parseDecimalDigits (b : List Nat) : Int :=
  b.foldl (fun v c => v * 10 + (((c + 208) % 256 : Nat) : Int)) 0

/-- `daysBefore` (decode.go:439): cumulative days before each month of a
non-leap year; 13 entries, indices 0..12. -/
def daysBefore : List Int :=
  [0, 31, 59, 90, 120, 151, 181, 212, 243, 273, 304, 334, 365]

/-- Go array indexing with an `int` index: out of range (negative or ≥ length)
is a run-time panic, modelled as `none`. -/
def goIndex (l : List Int) (i : Int) : Option Int :=
  if 0 ≤ i then l.get? i.toNat else none

/-- `isLeap` (decode.go:462). Go `%` truncates toward zero while Lean `%` on
`Int` is Euclidean; the two agree on the non-negative years produced by
`parseDecimalDigits`, the only values flowing in here. -/
def isLeap (year : Int) : Bool :=
  year % 4 == 0 && (year % 100 != 0 || year % 400 == 0)

/-- `daysIn` (decode.go:455): 29 for a leap February, otherwise
`daysBefore[m] - daysBefore[m-1]`. Both array accesses are unguarded in the
source, so `m` outside 0 < m ≤ 12 reaches an out-of-range index — a panic. -/
def daysIn (m year : Int) : GoRes Int :=
  if m == 2 && isLeap year then .ok 29
  else
    match goIndex daysBefore m, goIndex daysBefore (m - 1) with
    | some a, some b => .ok (a - b)
    | _, _ => .panic

/-- `isValidDate` (decode.go:432): `day <= daysIn(month, year)`. -/
def isValidDate (year month day : Int) : GoRes Bool :=
  match daysIn month year with
  | .ok d => .ok (day ≤ d)
  | .err e => .err e
  | .panic => .panic

/-- `parseLocalDate` (decode.go:27): requires a 10-byte input with '-' at
positions 4 and 7, reads the three decimal digit groups, and rejects via
`isValidDate`. Slices `b[0:4]`, `b[5:7]`, `b[8:10]` become take/drop. -/
def parseLocalDate (b : List Nat) : GoRes LocalDate :=
  if b.length == 10 && b.get? 4 == some 45 && b.get? 7 == some 45 then
    let year := parseDecimalDigits (b.take 4)
    let month := parseDecimalDigits ((b.drop 5).take 2)
    let day := parseDecimalDigits ((b.drop 8).take 2)
    match isValidDate year month day with
    | .ok true => .ok ⟨year, month, day⟩
    | .ok false => .err "impossible date"
    | .err e => .err e
    | .panic => .panic
  else
    .err "dates are expected to have the format YYYY-MM-DD"

/-- `isDigit`: ASCII digit test `'0' <= c && c <= '9'`. The helper lives in a
go-toml file not part of the snapshot; modelled from the spec grammar
comments (`4DIGIT`, `2DIGIT` — decimal ASCII digits). The claims proved below
do not depend on which bytes it accepts. -/
def isDigit (c : Nat) : Bool := 48 ≤ c && c ≤ 57

/-- The slow-path loop of `checkAndRemoveUnderscoresFloats` (decode.go:400):
runs over all of `b` from index 0 with `before = false` and an empty
accumulator, dropping underscores and rejecting an underscore without a digit
before it, after an exponent, or around a decimal point. `full` is the whole
slice, used for the look-around `b[i+1]` / `b[i-1]` (both guarded in the
source); `rest` is `b[i:]`. -/
def cleanFloatLoop (full : List Nat) : Nat → List Nat → Bool → List Nat → GoRes (List Nat)
  | _, [], _, cleaned => .ok cleaned
  | i, c :: rest, before, cleaned =>
    if c == 95 then
      if !before then .err "number must have at least one digit between underscores"
      else cleanFloatLoop full (i + 1) rest false cleaned
    else if c == 101 || c == 69 then
      if full.get? (i + 1) == some 95 then .err "cannot have underscore after exponent"
      else cleanFloatLoop full (i + 1) rest before (cleaned ++ [c])
    else if c == 46 then
      if full.get? (i + 1) == some 95 then .err "cannot have underscore after decimal point"
      else if i != 0 && full.get? (i - 1) == some 95 then
        .err "cannot have underscore before decimal point"
      else cleanFloatLoop full (i + 1) rest before (cleaned ++ [c])
    else
      cleanFloatLoop full (i + 1) rest true (cleaned ++ [c])

/-- `checkAndRemoveUnderscoresFloats` (decode.go:377): rejects a leading or
trailing underscore, returns `b` unchanged when it contains none (fast path),
otherwise runs the cleaning loop over all of `b`. `b[0]` and `b[len(b)-1]` on
an empty slice are out-of-range accesses. -/
def checkAndRemoveUnderscoresFloats (b : List Nat) : GoRes (List Nat) :=
  match b.head? with
  | none => .panic
  | some c0 =>
    if c0 == 95 then .err "number cannot start with underscore"
    else if b.get? (b.length - 1) == some 95 then .err "number cannot end with underscore"
    else if b.contains 95 then cleanFloatLoop b 0 b false []
    else .ok b

/-- The decimal-point loop of `parseFloat` (decode.go:236): scans `cleaned`,
rejecting a second point and a point not surrounded by digits. `cleaned[i-1]`
with `i = 0` and `cleaned[i+1]` past the end would be Go index panics; both
accesses are embedded fallibly. `none` means the loop finished without
returning. -/
def dotLoop (full : List Nat) : Nat → List Nat → Bool → Option (GoRes Unit)
  | _, [], _ => none
  | i, c :: rest, dotSeen =>
    if c == 46 then
      if dotSeen then some (.err "float can have at most one decimal point")
      else if i == 0 then some .panic
      else
        match full.get? (i - 1) with
        | none => some .panic
        | some p =>
          if !isDigit p then some (.err "float decimal point must be preceded by a digit")
          else
            match full.get? (i + 1) with
            | none => some .panic
            | some n =>
              if !isDigit n then some (.err "float decimal point must be followed by a digit")
              else dotLoop full (i + 1) rest true
    else dotLoop full (i + 1) rest dotSeen

/-- `parseFloat` (decode.go:217), with the final `strconv.ParseFloat` call
abstracted by the parameter `sc`: `strconv.ParseFloat` is the Go standard
library (outside the snapshot), never panics, and only its success (`.ok`, a
returned `float64`) versus failure (`.err`, wrapped into a decode error at
decode.go:261) is observable to the claims below — `float64` values
themselves are not modelled. Every byte access of the source is embedded
fallibly; `.panic` marks exactly the executions where an index is out of
range, in particular the leading-zero look-ahead `b[start+1]`
(decode.go:255). -/
def parseFloat (sc : List Nat → Bool) (b : List Nat) : GoRes Unit :=
  if b.length == 4 && (b.get? 0 == some 43 || b.get? 0 == some 45) &&
      b.get? 1 == some 110 && b.get? 2 == some 97 && b.get? 3 == some 110 then
    .ok ()
  else
    match checkAndRemoveUnderscoresFloats b with
    | .panic => .panic
    | .err e => .err e
    | .ok cleaned =>
      match cleaned.head? with
      | none => .panic
      | some c0 =>
        if c0 == 46 then .err "float cannot start with a dot"
        else
          match cleaned.get? (cleaned.length - 1) with
          | none => .panic
          | some cl =>
            if cl == 46 then .err "float cannot end with a dot"
            else
              match dotLoop cleaned 0 cleaned false with
              | some r => r
              | none =>
                match b.head? with
                | none => .panic
                | some b0 =>
                  -- `start` is 1 after a sign, else 0 (decode.go:251)
                  match b.get? (if b0 == 43 || b0 == 45 then 1 else 0) with
                  | none => .panic
                  | some bs =>
                    if bs == 48 then
                      match b.get? ((if b0 == 43 || b0 == 45 then 1 else 0) + 1) with
                      | none => .panic
                      | some bn =>
                        if isDigit bn then .err "float integer part cannot have leading zeroes"
                        else if sc cleaned then .ok () else .err "unable to parse float"
                    else if sc cleaned then .ok () else .err "unable to parse float"

/-- The Go integer kinds `unmarshalInteger` (unmarshaler.go:825) switches on
(`reflect.Int64` … `reflect.Uint`). The `Interface` and default cases store no
sized integer and are outside claim C6's scope. -/
inductive IntKind where
  | int64 | int32 | int16 | int8 | int
  | uint64 | uint32 | uint16 | uint8 | uint
deriving Repr, DecidableEq

/-- Width of Go `int`/`uint` on the build platform (`^uint(0) >> 1` in the
source computes `maxInt` from it); hugo-search targets 64-bit platforms. -/
def wordSize : Nat := 64

/-- Go conversion `uintN(i)` from `int64`: truncation to the low `w` bits,
read as an unsigned value. -/
def toUnsigned (w : Nat) (i : Int) : Int := i % (2 ^ w)

/-- Go conversion `intN(i)` from `int64`: truncation to the low `w` bits,
read as a two's-complement signed value. -/
def toSigned (w : Nat) (i : Int) : Int := (i + 2 ^ (w - 1)) % 2 ^ w - 2 ^ (w - 1)

/-- `unmarshalInteger` (unmarshaler.go:825) after `parseInteger` has produced
the `int64` value `i`: per target kind, an explicit range check returning
`fmt.Errorf` when `i` does not fit, then the converted value is stored
(`v.SetInt` / `reflect.ValueOf(intN(i))` …). `maxInt`/`minInt` are the
source's constants `int64(^uint(0) >> 1)` and `-maxInt - 1`. The result is
the stored numeric value. -/
def unmarshalInteger (k : IntKind) (i : Int) : Except String Int :=
  let maxInt : Int := 2 ^ (wordSize - 1) - 1
  let minInt : Int := -maxInt - 1
  match k with
  | .int64 => .ok i
  | .int32 =>
      if i < -(2 ^ 31) ∨ i > 2 ^ 31 - 1 then .error "toml: number does not fit in an int32"
      else .ok (toSigned 32 i)
  | .int16 =>
      if i < -(2 ^ 15) ∨ i > 2 ^ 15 - 1 then .error "toml: number does not fit in an int16"
      else .ok (toSigned 16 i)
  | .int8 =>
      if i < -(2 ^ 7) ∨ i > 2 ^ 7 - 1 then .error "toml: number does not fit in an int8"
      else .ok (toSigned 8 i)
  | .int =>
      if i < minInt ∨ i > maxInt then .error "toml: number does not fit in an int"
      else .ok (toSigned wordSize i)
  | .uint64 =>
      if i < 0 then .error "toml: negative number does not fit in an uint64"
      else .ok (toUnsigned 64 i)
  | .uint32 =>
      if i < 0 ∨ i > 2 ^ 32 - 1 then .error "toml: negative number does not fit in an uint32"
      else .ok (toUnsigned 32 i)
  | .uint16 =>
      if i < 0 ∨ i > 2 ^ 16 - 1 then .error "toml: negative number does not fit in an uint16"
      else .ok (toUnsigned 16 i)
  | .uint8 =>
      if i < 0 ∨ i > 2 ^ 8 - 1 then .error "toml: negative number does not fit in an uint8"
      else .ok (toUnsigned 8 i)
  | .uint =>
      if i < 0 then .error "toml: negative number does not fit in an uint"
      else .ok (toUnsigned wordSize i)

/-- The range of each Go integer kind on the 64-bit build platform, written
from the claim's words ("the target type's range", with 0 as the lower bound
of every unsigned type): for comparison with the source's checks. -/
def kindMin : IntKind → Int
  | .int64 => -(2 ^ 63)
  | .int32 => -(2 ^ 31)
  | .int16 => -(2 ^ 15)
  | .int8 => -(2 ^ 7)
  | .int => -(2 ^ 63)
  | _ => 0

/-- Upper bound of each Go integer kind's range on the 64-bit platform. -/
def kindMax : IntKind → Int
  | .int64 => 2 ^ 63 - 1
  | .int32 => 2 ^ 31 - 1
  | .int16 => 2 ^ 15 - 1
  | .int8 => 2 ^ 7 - 1
  | .int => 2 ^ 63 - 1
  | .uint64 => 2 ^ 64 - 1
  | .uint32 => 2 ^ 32 - 1
  | .uint16 => 2 ^ 16 - 1
  | .uint8 => 2 ^ 8 - 1
  | .uint => 2 ^ 64 - 1

/-- `i` lies in the target kind's range. -/
def inRange (k : IntKind) (i : Int) : Prop := kindMin k ≤ i ∧ i ≤ kindMax k

end Toml

/-! ## The repository's own wiring, modelled from the spec

`main.go` is not part of the snapshot: only the README documents it. The
definitions below are therefore modelled from the specification's words, not
translated from source. -/

namespace Server

/-- Modelled from the spec: the resolved command-line configuration of
hugo-search (`-addr`, `-hugoPath`, `-indexPath`, `-verbose`, `-version`). -/
structure Config where
  addr : String
  hugoPath : String
  indexPath : String
  verbose : Bool
  version : Bool
deriving Repr, DecidableEq

/-- Modelled from the spec: the flags given on a command line; `none` means
the flag was not given. -/
structure FlagArgs where
  addr : Option String
  hugoPath : Option String
  indexPath : Option String
  verbose : Bool
  version : Bool
deriving Repr, DecidableEq

/-- Modelled from the spec: flag resolution — a flag that is given takes the
given value, a flag that is not given takes its documented default
(`:8080`, `.`, `indexes/search.bleve`). -/
def resolveFlags (a : FlagArgs) : Config :=
  { addr := a.addr.getD ":8080"
    hugoPath := a.hugoPath.getD "."
    indexPath := a.indexPath.getD "indexes/search.bleve"
    verbose := a.verbose
    version := a.version }

/-- Modelled from the spec: the observable top-level actions of the
program's wiring. -/
inductive MainAction where
  | printVersion
  | openIndex (path : String)
  | listen (addr : String)
deriving Repr, DecidableEq

/-- Modelled from the spec: the main wiring — with `-version` print the
version and exit; otherwise open the existing index at the index path and
start the HTTP listener on the configured address. -/
def mainActions (c : Config) : List MainAction :=
  if c.version then [.printVersion]
  else [.openIndex c.indexPath, .listen c.addr]

/-- An HTTP request as the route sees it: method, path segments, body. -/
structure HttpRequest where
  method : String
  path : List String
  body : String
deriving Repr, DecidableEq

/-- Modelled from the spec: the search engine's native JSON result
envelope — hits, total count, facets, timing — owned and produced by the
vendored engine's handler. -/
structure SearchResult where
  hits : List String
  total : Nat
  facets : List String
  took : Nat
deriving Repr, DecidableEq

/-- Modelled from the spec: the fixed route pattern
`POST /api/<index-name>/_search`. -/
def routeMatches (indexName : String) (r : HttpRequest) : Bool :=
  r.method == "POST" && r.path == ["api", indexName, "_search"]

/-- Modelled from the spec: the server's request handling — a request
matching the fixed route pattern is forwarded unchanged to the engine's
built-in handler (the parameter `engine`, owned by the vendored library) and
the handler's response is returned verbatim; the repository's code serves no
other route and alters neither request nor response. -/
def serve (engine : HttpRequest → SearchResult) (indexName : String)
    (r : HttpRequest) : Option SearchResult :=
  if routeMatches indexName r then some (engine r) else none

/-- Modelled from the spec: program startup — open the index at the
configured path, then bind the HTTP listener on the configured address; both
steps belong to the underlying library and HTTP stack, and each step's error
is returned exactly as produced, with no retry, recovery or partial-failure
handling. -/
def runServer (openIndex : String → Except String Unit)
    (bindAddr : String → Except String Unit) (c : Config) : Except String Unit := do
  openIndex c.indexPath
  bindAddr c.addr

end Server

/-! ## Helper lemmas -/

theorem cleanFloatLoop_ne_panic (full : List Nat) :
    ∀ rest i before cleaned, Toml.cleanFloatLoop full i rest before cleaned ≠ .panic := by
  intro rest
  induction rest with
  | nil => intro i before cleaned; simp [Toml.cleanFloatLoop]
  | cons c r ih =>
    intro i before cleaned
    unfold Toml.cleanFloatLoop
    repeat' split
    all_goals first | exact ih _ _ _ | simp

theorem cleanFloatLoop_ok_ne_nil (full : List Nat) :
    ∀ rest i before cleaned l, cleaned ≠ [] →
      Toml.cleanFloatLoop full i rest before cleaned = .ok l → l ≠ [] := by
  intro rest
  induction rest with
  | nil =>
    intro i before cleaned l hc he
    simp only [Toml.cleanFloatLoop, GoRes.ok.injEq] at he
    exact he ▸ hc
  | cons c r ih =>
    intro i before cleaned l hc he
    unfold Toml.cleanFloatLoop at he
    repeat' split at he
    all_goals first
      | simp at he
      | exact ih _ _ _ _ hc he
      | exact ih _ _ _ _ (by simp) he

theorem checkAndRemoveUnderscoresFloats_ne_panic (b : List Nat) (hb : b ≠ []) :
    Toml.checkAndRemoveUnderscoresFloats b ≠ .panic := by
  cases b with
  | nil => exact absurd rfl hb
  | cons c0 t =>
    simp only [Toml.checkAndRemoveUnderscoresFloats, List.head?]
    repeat' split
    all_goals first | exact cleanFloatLoop_ne_panic _ _ _ _ _ | simp

theorem checkAndRemoveUnderscoresFloats_ok_ne_nil (b l : List Nat) (hb : b ≠ [])
    (h : Toml.checkAndRemoveUnderscoresFloats b = .ok l) : l ≠ [] := by
  cases b with
  | nil => exact absurd rfl hb
  | cons c0 t =>
    simp only [Toml.checkAndRemoveUnderscoresFloats, List.head?] at h
    repeat' split at h
    · simp at h
    · simp at h
    · -- slow path: first iteration appends `c0` (it is not an underscore)
      unfold Toml.cleanFloatLoop at h
      repeat' split at h
      all_goals first
        | (rename_i hx; exact absurd rfl hx)
        | exact cleanFloatLoop_ok_ne_nil _ _ _ _ _ _ (List.cons_ne_nil _ _) h
        | simp at h
    · -- fast path: `l = b`
      simp only [GoRes.ok.injEq] at h
      exact h ▸ (by simp)

theorem drop_eq_cons_get? (l : List Nat) :
    ∀ i c r, l.drop i = c :: r → l.get? i = some c ∧ l.drop (i + 1) = r := by
  induction l with
  | nil => intro i c r h; simp at h
  | cons x xs ih =>
    intro i c r h
    cases i with
    | zero =>
      simp only [List.drop_zero] at h
      cases h
      exact ⟨rfl, by simp⟩
    | succ j =>
      simp only [List.drop_succ_cons] at h
      simpa using ih j c r h

theorem dotLoop_ne_panic (full : List Nat) (h0 : full.get? 0 ≠ some 46)
    (hl : full.get? (full.length - 1) ≠ some 46) :
    ∀ rest i dotSeen, full.drop i = rest →
      Toml.dotLoop full i rest dotSeen ≠ some .panic := by
  intro rest
  induction rest with
  | nil => intro i ds _; simp [Toml.dotLoop]
  | cons c r ih =>
    intro i ds hdrop
    obtain ⟨hget, hdrop'⟩ := drop_eq_cons_get? full i c r hdrop
    have hlt : i < full.length := by
      by_contra hge
      rw [List.get?_len_le (by omega)] at hget
      exact Option.noConfusion hget
    unfold Toml.dotLoop
    split
    · rename_i hc46
      have hc : c = 46 := by simpa using hc46
      split
      · simp
      · split
        · -- i = 0 branch: contradicts `full.get? 0 ≠ some 46`
          rename_i hi0
          have : i = 0 := by simpa using hi0
          exact absurd (this ▸ hc ▸ hget) h0
        · split
          · -- `full.get? (i-1) = none` is impossible: i - 1 < length
            rename_i hnone
            rw [List.get?_eq_none] at hnone
            omega
          · split
            · simp
            · split
              · -- `full.get? (i+1) = none`: then i is the last index, so the
                -- last element is the dot, contradicting `hl`
                rename_i hnone
                rw [List.get?_eq_none] at hnone
                have hi : full.length - 1 = i := by omega
                rw [hi] at hl
                exact absurd (hc ▸ hget) hl
              · split
                · simp
                · exact ih (i + 1) true hdrop'
    · exact ih (i + 1) ds hdrop'

/-! ## Claim theorems -/

/-- C4 (amended): for every non-empty byte slice `b` other than "0", "+",
"-", "+0", "-0" (an optional sign followed by at most the single digit '0'),
`parseFloat` either returns a float64 value or returns a decode error —
every byte access it performs stays within the bounds of `b`, so it does not
panic. On the five excluded inputs the leading-zero check after the optional
sign reads past the end of `b`. -/
theorem parseFloat_no_panic (sc : List Nat → Bool) (b : List Nat)
    (hne : b ≠ []) (hz : b ≠ [48]) (hp : b ≠ [43]) (hm : b ≠ [45])
    (hpz : b ≠ [43, 48]) (hmz : b ≠ [45, 48]) :
    Toml.parseFloat sc b ≠ GoRes.panic := by
  have hcap := checkAndRemoveUnderscoresFloats_ne_panic b hne
  obtain ⟨b0, bt, rfl⟩ := List.exists_cons_of_ne_nil hne
  unfold Toml.parseFloat
  split
  · simp
  · split
    · rename_i heq
      exact absurd heq hcap
    · simp
    · rename_i cleaned hok
      have hcne : cleaned ≠ [] :=
        checkAndRemoveUnderscoresFloats_ok_ne_nil _ cleaned hne hok
      obtain ⟨cc, ct, rfl⟩ := List.exists_cons_of_ne_nil hcne
      simp only [List.head?_cons]
      split
      · simp
      · rename_i hcc46
        split
        · rename_i hlast
          rw [List.get?_eq_none] at hlast
          simp at hlast
        · rename_i cl hcl
          split
          · simp
          · rename_i hcl46
            split
            · -- the dot loop returned early: never with a panic
              rename_i r hdl
              have hnp := dotLoop_ne_panic (cc :: ct)
                (by simpa using hcc46)
                (by rw [hcl]; simpa using hcl46)
                (cc :: ct) 0 false rfl
              intro hr
              rw [hr] at hdl
              exact hnp hdl
            · -- the loop fell through: the leading-zero check
              by_cases hsign : (b0 == 43 || b0 == 45) = true
              · simp only [if_pos hsign, List.get?_cons_succ]
                cases bt with
                | nil =>
                  rcases (by simpa using hsign : b0 = 43 ∨ b0 = 45) with h | h <;> subst h
                  · exact absurd rfl hp
                  · exact absurd rfl hm
                | cons b1 bt2 =>
                  simp only [List.get?_cons_zero]
                  split
                  · rename_i h48
                    cases bt2 with
                    | nil =>
                      have hb1 : b1 = 48 := by simpa using h48
                      subst hb1
                      rcases (by simpa using hsign : b0 = 43 ∨ b0 = 45) with h | h <;> subst h
                      · exact absurd rfl hpz
                      · exact absurd rfl hmz
                    | cons b2 bt3 =>
                      simp only [List.get?_cons_succ, List.get?_cons_zero]
                      split
                      · simp
                      · split <;> simp
                  · split <;> simp
              · simp only [if_neg hsign, List.get?_cons_zero]
                split
                · rename_i h48
                  cases bt with
                  | nil =>
                    have hb0 : b0 = 48 := by simpa using h48
                    subst hb0
                    exact absurd rfl hz
                  | cons b1 bt2 =>
                    simp only [List.get?_cons_succ, List.get?_cons_zero]
                    split
                    · simp
                    · split <;> simp
                · split <;> simp

/-- C5: `parseLocalDate` on the all-digit input "2021-13-01" (dashes at
positions 4 and 7, month group "13"): `isValidDate` calls `daysIn 13 2021`,
which evaluates `daysBefore[13]` on the 13-element array — an out-of-range
index, i.e. a run-time panic, where the claim promises a returned error. -/
theorem parseLocalDate_month13_panics :
    Toml.parseLocalDate [50, 48, 50, 49, 45, 49, 51, 45, 48, 49] = GoRes.panic := by
  rfl

/-- C6: for every `int64` value `i` and every sized integer target kind,
`unmarshalInteger` returns an error exactly when `i` is outside the target's
range (in particular every negative `i` is outside every unsigned target's
range, whose lower bound is 0), and on success the stored value equals `i`. -/
theorem unmarshalInteger_range (k : Toml.IntKind) (i : Int)
    (h1 : -(2 ^ 63) ≤ i) (h2 : i ≤ 2 ^ 63 - 1) :
    ((∃ e, Toml.unmarshalInteger k i = .error e) ↔ ¬ Toml.inRange k i) ∧
    (Toml.inRange k i → Toml.unmarshalInteger k i = .ok i) := by
  cases k <;>
    simp only [Toml.unmarshalInteger, Toml.inRange, Toml.kindMin, Toml.kindMax,
      Toml.toSigned, Toml.toUnsigned, Toml.wordSize]
  case int64 => exact ⟨by simp; omega, fun _ => trivial⟩
  all_goals split
  all_goals rename_i h
  all_goals
    first
      | exact ⟨by simp; omega, fun hr => absurd hr (by omega)⟩
      | (refine ⟨by simp; omega, fun hr => ?_⟩
         simp only [Except.ok.injEq]
         omega)

/-- C6 witness: the theorem applied at the concrete target kind `uint8` and
value 200. -/
theorem unmarshalInteger_range_witness :
    ((∃ e, Toml.unmarshalInteger .uint8 200 = .error e) ↔ ¬ Toml.inRange .uint8 200) ∧
    (Toml.inRange .uint8 200 → Toml.unmarshalInteger .uint8 200 = .ok 200) :=
  unmarshalInteger_range .uint8 200 (by decide) (by decide)

/-- C4 counterexample: the claim quantifies over every non-empty byte slice,
but on the input "0" the leading-zero check evaluates `b[start+1] = b[1]`
past the end of the slice — a panic, not a returned value or decode error. -/
theorem parseFloat_zero_panics :
    Toml.parseFloat (fun _ => true) [48] = GoRes.panic := by
  rfl

/-- C4 witness: the amended theorem applied at the concrete input "1.5". -/
theorem parseFloat_no_panic_witness :
    Toml.parseFloat (fun _ => true) [49, 46, 53] ≠ GoRes.panic :=
  parseFloat_no_panic (fun _ => true) [49, 46, 53] (by decide) (by decide)
    (by decide) (by decide) (by decide) (by decide)

/-- C1: every incoming request matching the fixed route pattern is forwarded
to the engine's built-in handler unchanged (`engine r`, the very request) and
the handler's response is returned verbatim. -/
theorem serve_delegates (engine : Server.HttpRequest → Server.SearchResult)
    (idx : String) (r : Server.HttpRequest)
    (h : Server.routeMatches idx r = true) :
    Server.serve engine idx r = some (engine r) := by
  simp [Server.serve, h]

/-- C1 witness: the delegation theorem applied at a concrete query request. -/
theorem serve_delegates_witness :
    Server.serve (fun _ => ⟨[], 2, [], 0⟩) "search.bleve"
      ⟨"POST", ["api", "search.bleve", "_search"], "lorem"⟩ =
      some ((fun _ => (⟨[], 2, [], 0⟩ : Server.SearchResult))
        (⟨"POST", ["api", "search.bleve", "_search"], "lorem"⟩ : Server.HttpRequest)) :=
  serve_delegates _ _ _ (by decide)

/-- C2: the search endpoint responds exactly to `POST /api/<index-name>/_search`
(whose body is the JSON query), and every successful query's response is the
engine's native result envelope — the `SearchResult` (hits, total count,
facets, timing) the engine's handler produces, unchanged. -/
theorem serve_endpoint (engine : Server.HttpRequest → Server.SearchResult)
    (idx : String) (r : Server.HttpRequest) :
    ((Server.serve engine idx r).isSome ↔
      r.method = "POST" ∧ r.path = ["api", idx, "_search"]) ∧
    (Server.serve engine idx r = none ∨
      Server.serve engine idx r = some (engine r)) := by
  constructor
  · by_cases h : Server.routeMatches idx r = true
    · simp only [Server.serve, if_pos h, Option.isSome_some, true_iff]
      simpa [Server.routeMatches] using h
    · simp only [Server.serve, if_neg h, Option.isSome_none, false_iff]
      simpa [Server.routeMatches] using h
  · by_cases h : Server.routeMatches idx r = true
    · exact Or.inr (by simp [Server.serve, h])
    · exact Or.inl (by simp [Server.serve, h])

/-- C3: a flag that is not given resolves to its documented default:
`-addr` to ":8080", `-hugoPath` to ".", `-indexPath` to
"indexes/search.bleve" — whatever the other flags hold. -/
theorem resolveFlags_defaults (a : Server.FlagArgs) :
    (Server.resolveFlags { a with addr := none }).addr = ":8080" ∧
    (Server.resolveFlags { a with hugoPath := none }).hugoPath = "." ∧
    (Server.resolveFlags { a with indexPath := none }).indexPath =
      "indexes/search.bleve" := by
  refine ⟨?_, ?_, ?_⟩ <;> simp [Server.resolveFlags]

/-- C7: with `-version` the program's action trace is exactly the version
print — it opens no index and starts no HTTP listener. -/
theorem mainActions_version (c : Server.Config) (h : c.version = true) :
    Server.mainActions c = [.printVersion] ∧
    ∀ a, Server.MainAction.listen a ∉ Server.mainActions c := by
  refine ⟨by simp [Server.mainActions, h], fun a => ?_⟩
  simp [Server.mainActions, h]

/-- C7 witness: the version theorem applied at a concrete configuration. -/
theorem mainActions_version_witness :
    Server.mainActions ⟨":8080", ".", "indexes/search.bleve", false, true⟩ =
      [.printVersion] ∧
    ∀ a, Server.MainAction.listen a ∉
      Server.mainActions ⟨":8080", ".", "indexes/search.bleve", false, true⟩ :=
  mainActions_version _ rfl

/-- C8: every startup failure surfaces the underlying error exactly: if
opening the index fails with `e`, or opening succeeds and binding the
listener fails with `e`, the program's result is exactly `error e` — no
retry, recovery or substitution. -/
theorem runServer_surfaces_errors (openIndex bindAddr : String → Except String Unit)
    (c : Server.Config) (e : String)
    (h : openIndex c.indexPath = .error e ∨
      (openIndex c.indexPath = .ok () ∧ bindAddr c.addr = .error e)) :
    Server.runServer openIndex bindAddr c = .error e := by
  rcases h with h1 | ⟨h1, h2⟩
  · simp [Server.runServer, h1, Bind.bind, Except.bind]
  · simp [Server.runServer, h1, h2, Bind.bind, Except.bind]

/-- C8 witness: the error-surfacing theorem applied to a concrete failing
index open. -/
theorem runServer_surfaces_errors_witness :
    Server.runServer (fun _ => .error "cannot open index") (fun _ => .ok ())
      ⟨":8080", ".", "indexes/search.bleve", false, false⟩ =
      .error "cannot open index" :=
  runServer_surfaces_errors _ _ _ _ (Or.inl rfl)
